import Mathlib

/-!
Verification development for the django-onmydesk report pipeline.

Shallow embedding of:
* `onmydesk/utils.py` (`str_to_date`),
* `onmydesk/core/reports.py` (`BaseReport.__init__`, `BaseReport.process`,
  `BaseReport.row_cleaner`),
* `onmydesk/models.py` (`output_file_handler`, `Report.process`,
  `Report.results_as_list`).

Python strings are modelled as lists of characters, dates as integer day
numbers (`timedelta(days=n)` becomes integer addition), exceptions as an
`Except` result, and the Django database row behind a model instance as
explicit `saved*` fields updated only by the modelled `save` calls.
-/

namespace OnMyDesk

/-- A Python `str`, modelled as its list of characters. -/
abbrev PyStr := List Char

/-- Exceptions raised by the modelled code. -/
inductive PyExc where
  | valueError
  | reportNotSaved
  | importError
  deriving DecidableEq

/-! ### utils.str_to_date -/

/-- Model of `value.strip(' ').replace(' ', '').upper()`.  `strip(' ')` removes
leading and trailing spaces and `replace(' ', '')` then removes every remaining
space, so together they delete all spaces; `upper()` is modelled per character
with `Char.toUpper` (ASCII upcasing, which agrees with Python on the ASCII
input the subsequent regex can accept). -/
def pyNormalize (value : PyStr) : PyStr :=
  (value.filter (fun c => c ≠ ' ')).map Char.toUpper

/-- The alternatives of the regex as exact whole-string matches: the single
character `D`, or `D` followed by `-` or `+` followed by one or more ASCII
digits. -/
def matchesDateCore (s : PyStr) : Bool :=
  match s with
  | [c] => c = 'D'
  | c :: d :: rest =>
      c = 'D' && (d = '-' || d = '+') && !rest.isEmpty && rest.all Char.isDigit
  | _ => false

/-- Model of `re.match('^D[\-+][0-9]+$|^D$', n_value)`: `re.match` anchors the
pattern at the start of the string, and `$` (without `re.MULTILINE`) matches
at the end of the string *or just before a newline that ends the string*, so
the pattern accepts each alternative optionally followed by one trailing
newline. -/
def matchesDateShape (s : PyStr) : Bool :=
  matchesDateCore s || (s.getLast? = some '\n' && matchesDateCore s.dropLast)

/-- The decimal value of a string of ASCII digits. -/
def digitsToNat (s : PyStr) : Nat :=
  s.foldl (fun a c => 10 * a + (c.toNat - 48)) 0

/-- Python `int()` ignores surrounding whitespace: this is the strip it
performs before reading the digits. -/
def pyStrip (s : PyStr) : PyStr :=
  ((s.dropWhile Char.isWhitespace).reverse.dropWhile Char.isWhitespace).reverse

/-- Model of Python `int()` on the strings reachable here (ASCII digits
possibly surrounded by whitespace, such as the trailing newline the regex
tolerates). -/
def pyInt (s : PyStr) : Nat :=
  digitsToNat (pyStrip s)

/-- Model of `utils.str_to_date`.  Dates are integer day numbers, so
`reference_date - timedelta(days=days)` is integer subtraction.  The function
body ends without a `return` statement when none of its branches fire (which
the regex check makes unreachable); that implicit `None` is modelled by the
`Option` in the result. -/
def str_to_date (value : PyStr) (reference_date : Int) : Except PyExc (Option Int) :=
  let n_value := pyNormalize value
  if !matchesDateShape n_value then
    Except.error PyExc.valueError
  else if n_value = ['D'] then
    Except.ok (some reference_date)
  else if n_value.take 2 = ['D', '-'] then
    Except.ok (some (reference_date - (pyInt (n_value.drop 2) : Int)))
  else if n_value.take 2 = ['D', '+'] then
    Except.ok (some (reference_date + (pyInt (n_value.drop 2) : Int)))
  else
    Except.ok none

/-- A regex alternative matches exactly the three shapes named in the source
comment. -/
lemma matchesDateCore_eq_true_iff (s : PyStr) :
    matchesDateCore s = true ↔
      s = ['D'] ∨
      ∃ c ds, (c = '-' ∨ c = '+') ∧ ds ≠ [] ∧ (∀ d ∈ ds, d.isDigit) ∧
        s = 'D' :: c :: ds := by
  match s with
  | [] => simp [matchesDateCore]
  | [c] =>
      simp only [matchesDateCore]
      constructor
      · intro h
        exact Or.inl (by simpa using h)
      · rintro (h | ⟨c', ds, _, _, _, h⟩)
        · simp_all
        · simp_all
  | c :: d :: rest =>
      simp only [matchesDateCore, Bool.and_eq_true, Bool.or_eq_true,
        decide_eq_true_eq, Bool.not_eq_true', List.isEmpty_eq_false,
        List.all_eq_true]
      constructor
      · rintro ⟨⟨⟨hc, hd⟩, hne⟩, hdig⟩
        exact Or.inr ⟨d, rest, hd, hne, fun x hx => hdig x hx, by rw [hc]⟩
      · rintro (h | ⟨c', ds, hd, hne, hdig, heq⟩)
        · exact absurd h (by simp)
        · obtain ⟨hc, hc', hrest⟩ : c = 'D' ∧ d = c' ∧ rest = ds := by
            simpa using heq
          subst hc hc' hrest
          exact ⟨⟨⟨rfl, hd⟩, hne⟩, fun x hx => hdig x hx⟩

/-- An ASCII digit is not whitespace. -/
lemma not_whitespace_of_isDigit {c : Char} (h : c.isDigit = true) :
    c.isWhitespace = false := by
  by_contra hw
  have hw' : c.isWhitespace = true := Bool.of_not_eq_false hw
  have : ((c = ' ' ∨ c = '\t') ∨ c = '\r') ∨ c = '\n' := by
    simpa [Char.isWhitespace] using hw'
  rcases this with ((rfl | rfl) | rfl) | rfl <;> exact absurd h (by decide)

/-- A string of digits loses nothing to a leading-whitespace strip. -/
lemma dropWhile_whitespace_digits (l : PyStr) (hdig : ∀ c ∈ l, c.isDigit = true) :
    l.dropWhile Char.isWhitespace = l := by
  cases l with
  | nil => rfl
  | cons a t =>
      rw [List.dropWhile_cons]
      simp [not_whitespace_of_isDigit (hdig a (by simp))]

/-- A leading-whitespace strip does not look past a digit head. -/
lemma dropWhile_whitespace_digits_append (ds tail : PyStr) (hne : ds ≠ [])
    (hdig : ∀ c ∈ ds, c.isDigit = true) :
    (ds ++ tail).dropWhile Char.isWhitespace = ds ++ tail := by
  obtain ⟨a, ds', rfl⟩ := List.exists_cons_of_ne_nil hne
  rw [List.cons_append, List.dropWhile_cons]
  simp [not_whitespace_of_isDigit (hdig a (by simp))]

/-- `int()` on a non-empty digit string with an optional trailing newline
reads the digits: the strip removes exactly the newline. -/
lemma pyInt_digits (ds tail : PyStr) (hne : ds ≠ [])
    (hdig : ∀ c ∈ ds, c.isDigit = true) (htail : tail = [] ∨ tail = ['\n']) :
    pyInt (ds ++ tail) = digitsToNat ds := by
  have hrev : ds.reverse.dropWhile Char.isWhitespace = ds.reverse :=
    dropWhile_whitespace_digits ds.reverse
      (fun c hc => hdig c (List.mem_reverse.mp hc))
  rcases htail with rfl | rfl
  · rw [List.append_nil]
    simp only [pyInt, pyStrip]
    rw [dropWhile_whitespace_digits ds hdig, hrev, List.reverse_reverse]
  · simp only [pyInt, pyStrip]
    rw [dropWhile_whitespace_digits_append ds ['\n'] hne hdig,
      List.reverse_append]
    simp only [List.reverse_cons, List.reverse_nil, List.nil_append,
      List.singleton_append]
    rw [List.dropWhile_cons,
      if_pos (show Char.isWhitespace '\n' = true by decide), hrev,
      List.reverse_reverse]

/-- The full regex accepts exactly the three shapes each optionally followed
by one trailing newline. -/
lemma matchesDateShape_eq_true_iff (s : PyStr) :
    matchesDateShape s = true ↔
      s = ['D'] ∨ s = ['D', '\n'] ∨
      ∃ c ds tail, (c = '-' ∨ c = '+') ∧ ds ≠ [] ∧ (∀ d ∈ ds, d.isDigit) ∧
        (tail = [] ∨ tail = ['\n']) ∧ s = 'D' :: c :: (ds ++ tail) := by
  constructor
  · intro h
    have h' : matchesDateCore s = true ∨
        (s.getLast? = some '\n' ∧ matchesDateCore s.dropLast = true) := by
      simpa [matchesDateShape] using h
    rcases h' with hcore | ⟨hlast, hcore'⟩
    · rcases (matchesDateCore_eq_true_iff s).mp hcore with
        h1 | ⟨c, ds, hc, hne, hdig, heq⟩
      · exact Or.inl h1
      · exact Or.inr (Or.inr ⟨c, ds, [], hc, hne, hdig, Or.inl rfl,
          by simpa using heq⟩)
    · have hsne : s ≠ [] := by
        rintro rfl
        simp at hlast
      have hgl : s.getLast hsne = '\n' := by
        have hh := List.getLast?_eq_getLast s hsne
        rw [hh] at hlast
        exact Option.some.inj hlast
      have hs : s.dropLast ++ ['\n'] = s := by
        rw [← hgl]
        exact List.dropLast_append_getLast hsne
      rcases (matchesDateCore_eq_true_iff _).mp hcore' with
        h1 | ⟨c, ds, hc, hne, hdig, heq⟩
      · rw [h1] at hs
        exact Or.inr (Or.inl (by simpa using hs.symm))
      · rw [heq] at hs
        exact Or.inr (Or.inr ⟨c, ds, ['\n'], hc, hne, hdig, Or.inr rfl,
          by simpa using hs.symm⟩)
  · rintro (h1 | h2 | ⟨c, ds, tail, hc, hne, hdig, htail, heq⟩)
    · rw [h1]
      decide
    · rw [h2]
      decide
    · have hcore : matchesDateCore ('D' :: c :: ds) = true :=
        (matchesDateCore_eq_true_iff _).mpr (Or.inr ⟨c, ds, hc, hne, hdig, rfl⟩)
      rcases htail with rfl | rfl
      · rw [heq]
        simp [matchesDateShape, hcore]
      · have h2 : s = ('D' :: c :: ds) ++ ['\n'] := by simp [heq]
        have hlast : s.getLast? = some '\n' := by
          rw [h2]
          exact List.getLast?_concat _
        have hdrop : s.dropLast = 'D' :: c :: ds := by
          rw [h2]
          exact List.dropLast_concat
        simp [matchesDateShape, hlast, hdrop, hcore]

/-! ### core.reports.BaseReport -/

/-- One write performed on an output sink: `output.header(h)`, `output.out(row)`
or `output.footer(f)`. -/
inductive OutEvent (H R F : Type) where
  | hdr (h : Option H)
  | row (r : R)
  | ftr (f : Option F)
  deriving DecidableEq

/-- An output object: its `filepath` attribute and the sequence of writes it
has received. -/
structure OutputSink (H R F P : Type) where
  filepath : P
  events : List (OutEvent H R F)
  deriving DecidableEq

/-- The state of a `BaseReport` instance that `process` reads: `header`,
`footer` (class attributes defaulting to `None`), the overridable
`row_cleaner` (the base class implementation returns its argument unchanged),
the finite sequence of rows the dataset iterator yields for `self.params`, and
the filepaths of the configured outputs. -/
structure BaseReport (H R F P : Type) where
  header : Option H
  footer : Option F
  cleaner : R → R
  rows : List R
  outputPaths : List P

/-- `BaseReport.row_cleaner` of the base class: returns the row unchanged. -/
def defaultRowCleaner {R : Type} (row : R) : R := row

/-- `for output in outputs: output.header(self.header)`. -/
def writeHeader {H R F P : Type} (h : Option H) (outs : List (OutputSink H R F P)) :
    List (OutputSink H R F P) :=
  outs.map (fun o => { o with events := o.events ++ [OutEvent.hdr h] })

/-- `for output in outputs: output.out(row)` for one (already cleaned) row. -/
def writeRowAll {H R F P : Type} (r : R) (outs : List (OutputSink H R F P)) :
    List (OutputSink H R F P) :=
  outs.map (fun o => { o with events := o.events ++ [OutEvent.row r] })

/-- The row loop of `BaseReport.process`: a single pass over the dataset
iterator; each row is cleaned once and then written to every output. -/
def processRows {H R F P : Type} (cleaner : R → R) :
    List R → List (OutputSink H R F P) → List (OutputSink H R F P)
  | [], outs => outs
  | r :: rest, outs => processRows cleaner rest (writeRowAll (cleaner r) outs)

/-- `for output in outputs: output.footer(self.footer)`. -/
def writeFooter {H R F P : Type} (f : Option F) (outs : List (OutputSink H R F P)) :
    List (OutputSink H R F P) :=
  outs.map (fun o => { o with events := o.events ++ [OutEvent.ftr f] })

/-- Result of `BaseReport.process`: the final output sinks and the value
assigned to `self.output_filepaths`. -/
structure ProcessResult (H R F P : Type) where
  sinks : List (OutputSink H R F P)
  output_filepaths : List P
  deriving DecidableEq

/-- `BaseReport.process`: enter the dataset and the outputs, write every
header, stream the rows through `row_cleaner` into every output, write every
footer, then set `self.output_filepaths = [o.filepath for o in outputs]`. -/
def BaseReport.process {H R F P : Type} (rep : BaseReport H R F P) :
    ProcessResult H R F P :=
  let outs0 := rep.outputPaths.map (fun p => OutputSink.mk p [])
  let outs1 := writeHeader rep.header outs0
  let outs2 := processRows rep.cleaner rep.rows outs1
  let outs3 := writeFooter rep.footer outs2
  { sinks := outs3, output_filepaths := outs3.map OutputSink.filepath }

lemma processRows_eq {H R F P : Type} (cleaner : R → R) (rows : List R)
    (outs : List (OutputSink H R F P)) :
    processRows cleaner rows outs =
      outs.map (fun o =>
        { o with events := o.events ++ (rows.map cleaner).map OutEvent.row }) := by
  induction rows generalizing outs with
  | nil => simp [processRows]
  | cons r rest ih =>
      rw [processRows, ih]
      simp [writeRowAll, List.map_map]

/-! ### Attribute aliasing: the class attribute `output_filepaths` vs the
instance attribute created by `__init__`.

Python list objects live on a heap; `BaseReport.output_filepaths = []` in the
class body allocates one shared list (cell 0 below), and
`self.output_filepaths = []` in `__init__` allocates a fresh list and binds it
in the instance dictionary.  Both assignments in the source rebind the
attribute to a newly built list; no code mutates a list in place, so the heap
below is only ever extended by allocation. -/

/-- A heap of Python list objects, addressed by allocation order. -/
structure ListHeap (P : Type) where
  cells : List (List P)

/-- Allocate a new list object, returning its reference. -/
def ListHeap.alloc {P : Type} (h : ListHeap P) (v : List P) : ListHeap P × Nat :=
  ({ cells := h.cells ++ [v] }, h.cells.length)

/-- Dereference a list object. -/
def ListHeap.read {P : Type} (h : ListHeap P) (r : Nat) : List P :=
  h.cells.getD r []

/-- The reference held by the class attribute `BaseReport.output_filepaths`. -/
def classAttrRef : Nat := 0

/-- The heap right after the class body ran: cell 0 is the shared class-level
empty list. -/
def classHeap (P : Type) : ListHeap P := { cells := [[]] }

/-- The instance dictionary entry for `output_filepaths`: a reference to a
list object. -/
structure BRInstance where
  ofpRef : Nat

/-- `BaseReport.__init__`: `self.output_filepaths = []` allocates a fresh
empty list and binds it on the instance. -/
def initInstance {P : Type} (h : ListHeap P) : ListHeap P × BRInstance :=
  let a := h.alloc []
  (a.1, { ofpRef := a.2 })

/-- The final assignment of `BaseReport.process`:
`self.output_filepaths = [o.filepath for o in outputs]` builds a new list and
rebinds the instance attribute to it. -/
def setOutputFilepaths {P : Type} (h : ListHeap P) (fps : List P) :
    ListHeap P × BRInstance :=
  let a := h.alloc fps
  (a.1, { ofpRef := a.2 })

/-! ### models.py -/

/-- The four values of the `status` column (`STATUS_CHOICES`). -/
inductive RStatus where
  | pending
  | processing
  | processed
  | error
  deriving DecidableEq

/-- A `Report` model instance together with its database row.  The `saved*`
fields model the columns of the persisted row; they change only when the
modelled code calls `save`. -/
structure ReportRecord where
  id : Option Nat
  status : RStatus
  results : Option PyStr
  process_time : Option Int
  savedStatus : RStatus
  savedResults : Option PyStr
  savedProcessTime : Option Int
  deriving DecidableEq

/-- A freshly constructed record: `status` has the field default
`STATUS_PENDING`, `results` and `process_time` are NULL. -/
def ReportRecord.new (id : Option Nat) : ReportRecord :=
  { id := id, status := RStatus.pending, results := none, process_time := none,
    savedStatus := RStatus.pending, savedResults := none,
    savedProcessTime := none }

/-- Python truthiness of `self.id`: `not self.id` holds for `None` and `0`. -/
def pyFalsyId : Option Nat → Bool
  | none => true
  | some n => n = 0

/-- `self.save(update_fields=['status'])`: only the `status` column of the
database row is written. -/
def saveStatusOnly (r : ReportRecord) : ReportRecord :=
  { r with savedStatus := r.status }

/-- The environment of one `Report.process` call: whether
`my_import(self.report)` and the report construction succeed, the outcome of
`report.process()` (an exception, or normal return leaving
`report.output_filepaths`), the optional `settings.ONMYDESK_FILE_HANDLER`
function, and the measured elapsed time. -/
structure ProcessEnv where
  importOk : Bool
  runResult : Except Unit (List PyStr)
  fileHandler : Option (PyStr → PyStr)
  elapsed : Int

/-- `models.output_file_handler`: with no configured handler the filepath is
returned unchanged, otherwise the resolved handler's result is returned. -/
def output_file_handler (fh : Option (PyStr → PyStr)) (filepath : PyStr) : PyStr :=
  match fh with
  | none => filepath
  | some handler => handler filepath

/-- `Report.process`.  The result is the raised exception (if any), the final
record (Python object mutations survive a raised exception), and the trace of
assignments to `self.status` in order.

Following the source: an unsaved record raises `ReportNotSavedException`
before anything else; then `status` is set to `processing` and saved with
`update_fields=['status']`; `my_import` and the report constructor run
*outside* the `try`, so their failure propagates; inside the `try`, a failure
of `report.process()` is caught and ends in status `error` (saved), while
success sets `process_time`, maps `output_file_handler` over
`report.output_filepaths`, joins with `';'` into `self.results`, sets status
`processed` and saves with `update_fields=['status']`. -/
def Report.process (env : ProcessEnv) (self : ReportRecord) :
    Except PyExc Unit × ReportRecord × List RStatus :=
  if pyFalsyId self.id then
    (Except.error PyExc.reportNotSaved, self, [])
  else
    let s1 := saveStatusOnly { self with status := RStatus.processing }
    if !env.importOk then
      (Except.error PyExc.importError, s1, [RStatus.processing])
    else
      match env.runResult with
      | Except.error _ =>
          let s2 := saveStatusOnly { s1 with status := RStatus.error }
          (Except.ok (), s2, [RStatus.processing, RStatus.error])
      | Except.ok filepaths =>
          let s2 := { s1 with process_time := some env.elapsed }
          let handled := filepaths.map (output_file_handler env.fileHandler)
          let s3 := { s2 with results := some (List.intercalate [';'] handled) }
          let s4 := saveStatusOnly { s3 with status := RStatus.processed }
          (Except.ok (), s4, [RStatus.processing, RStatus.processed])

/-- `Report.results_as_list`: `None` and the empty string both give `[]`
(Python truthiness); otherwise `results.split(';')`. -/
def results_as_list (results : Option PyStr) : List PyStr :=
  match results with
  | none => []
  | some s => if s = [] then [] else s.splitOn ';'

/-! ### Theorems -/

/-- C9 counterexample: the normalized value `D-1\n` is none of the three
exact shapes `D`, `D-n`, `D+n` (its digit part carries a newline), yet
`str_to_date` does not raise `ValueError`: `re.match`'s `$` matches just
before the trailing newline and `int('1\n')` is `1`, so the call returns
`reference_date` minus one day. -/
theorem str_to_date_newline_cex :
    matchesDateCore (pyNormalize ['D', '-', '1', '\n']) = false ∧
    str_to_date ['D', '-', '1', '\n'] 100 ≠ Except.error PyExc.valueError ∧
    str_to_date ['D', '-', '1', '\n'] 100 = Except.ok (some 99) := by
  have hval : str_to_date ['D', '-', '1', '\n'] 100 = Except.ok (some 99) := rfl
  refine ⟨by decide, ?_, hval⟩
  rw [hval]
  exact fun h => Except.noConfusion h

/-- C9 (amended): on the normalized value (spaces removed, uppercased),
`str_to_date` returns `reference_date` for exactly `D`; returns
`reference_date` minus `n` days for `D-n` and plus `n` days for `D+n` (`n` a
non-negative decimal integer), optionally followed by one trailing newline
(which the regex `$` tolerates and `int()` strips); returns `None` for `D`
followed by a trailing newline (the regex matches but no branch fires); and
raises `ValueError` for every string not of these shapes. -/
theorem str_to_date_spec (value : PyStr) (reference_date : Int) :
    (pyNormalize value = ['D'] →
      str_to_date value reference_date = Except.ok (some reference_date)) ∧
    (pyNormalize value = ['D', '\n'] →
      str_to_date value reference_date = Except.ok none) ∧
    (∀ ds tail, ds ≠ [] → (∀ c ∈ ds, c.isDigit) →
      (tail = [] ∨ tail = ['\n']) →
      pyNormalize value = 'D' :: '-' :: (ds ++ tail) →
      str_to_date value reference_date =
        Except.ok (some (reference_date - (digitsToNat ds : Int)))) ∧
    (∀ ds tail, ds ≠ [] → (∀ c ∈ ds, c.isDigit) →
      (tail = [] ∨ tail = ['\n']) →
      pyNormalize value = 'D' :: '+' :: (ds ++ tail) →
      str_to_date value reference_date =
        Except.ok (some (reference_date + (digitsToNat ds : Int)))) ∧
    (pyNormalize value ≠ ['D'] → pyNormalize value ≠ ['D', '\n'] →
      (∀ c ds tail, (c = '-' ∨ c = '+') → ds ≠ [] → (∀ d ∈ ds, d.isDigit) →
        (tail = [] ∨ tail = ['\n']) →
        pyNormalize value ≠ 'D' :: c :: (ds ++ tail)) →
      str_to_date value reference_date = Except.error PyExc.valueError) := by
  refine ⟨?_, ?_, ?_, ?_, ?_⟩
  · intro h
    have hm : matchesDateShape ['D'] = true := by decide
    simp [str_to_date, h, hm]
  · intro h
    have hm : matchesDateShape ['D', '\n'] = true := by decide
    simp [str_to_date, h, hm]
  · intro ds tail hne hdig htail h
    have hm : matchesDateShape ('D' :: '-' :: (ds ++ tail)) = true :=
      (matchesDateShape_eq_true_iff _).mpr
        (Or.inr (Or.inr ⟨'-', ds, tail, Or.inl rfl, hne, hdig, htail, rfl⟩))
    have hint : pyInt (ds ++ tail) = digitsToNat ds :=
      pyInt_digits ds tail hne (fun c hc => hdig c hc) htail
    simp [str_to_date, h, hm, hint]
  · intro ds tail hne hdig htail h
    have hm : matchesDateShape ('D' :: '+' :: (ds ++ tail)) = true :=
      (matchesDateShape_eq_true_iff _).mpr
        (Or.inr (Or.inr ⟨'+', ds, tail, Or.inr rfl, hne, hdig, htail, rfl⟩))
    have hint : pyInt (ds ++ tail) = digitsToNat ds :=
      pyInt_digits ds tail hne (fun c hc => hdig c hc) htail
    simp [str_to_date, h, hm, hint]
  · intro hD hDn hshape
    have hm : matchesDateShape (pyNormalize value) = false := by
      by_contra hc
      have ht : matchesDateShape (pyNormalize value) = true :=
        Bool.of_not_eq_false hc
      rcases (matchesDateShape_eq_true_iff _).mp ht with
        h1 | h2 | ⟨c, ds, tail, hcs, hne, hdig, htail, heq⟩
      · exact hD h1
      · exact hDn h2
      · exact hshape c ds tail hcs hne hdig htail heq
    simp [str_to_date, hm]

/-- Witness for the amended C9: `' d-12\n'` with reference day 100 yields
day 88. -/
theorem str_to_date_spec_witness :
    str_to_date [' ', 'd', '-', '1', '2', '\n'] 100 =
      Except.ok (some (100 - (digitsToNat ['1', '2'] : Int))) :=
  (str_to_date_spec [' ', 'd', '-', '1', '2', '\n'] 100).2.2.1 ['1', '2'] ['\n']
    (by decide) (by decide) (by decide) (by decide)

/-- C1: `BaseReport.process` makes a single pass over the dataset rows; every
output receives `header(self.header)` first, then each cleaned row in dataset
order, then `footer(self.footer)`; and on completion `output_filepaths` is the
list of the outputs' filepaths in output-list order. -/
theorem baseReport_process_spec {H R F P : Type} (rep : BaseReport H R F P) :
    rep.process.sinks =
      rep.outputPaths.map (fun p =>
        OutputSink.mk p
          (OutEvent.hdr rep.header ::
            ((rep.rows.map rep.cleaner).map OutEvent.row ++
              [OutEvent.ftr rep.footer]))) ∧
    rep.process.output_filepaths = rep.outputPaths := by
  constructor
  · show writeFooter _ (processRows _ _ (writeHeader _ _)) = _
    rw [processRows_eq]
    simp [writeHeader, writeFooter, List.map_map, Function.comp_def]
  · show (writeFooter _ (processRows _ _ (writeHeader _ _))).map _ = _
    rw [processRows_eq]
    simp [writeHeader, writeFooter, List.map_map, Function.comp_def]

/-! ### Concrete fixtures used by witnesses and counterexamples -/

/-- A run in which import succeeds and the report produces two output files. -/
def envOk : ProcessEnv :=
  { importOk := true, runResult := Except.ok [['a'], ['b']],
    fileHandler := none, elapsed := 3 }

/-- A run in which `report.process()` raises. -/
def envRunFail : ProcessEnv :=
  { importOk := true, runResult := Except.error (),
    fileHandler := none, elapsed := 3 }

/-- An external `ONMYDESK_FILE_HANDLER`. -/
def cloudHandler (s : PyStr) : PyStr := 'c' :: s

/-- A run with a configured file handler. -/
def envHandled : ProcessEnv :=
  { importOk := true, runResult := Except.ok [['a'], ['b']],
    fileHandler := some cloudHandler, elapsed := 3 }

/-- A persisted record (primary key 1). -/
def recSaved : ReportRecord := ReportRecord.new (some 1)

/-- A record that was never saved (`self.id is None`). -/
def recUnsaved : ReportRecord := ReportRecord.new none

/-- C2: for a saved record, whenever `Report.process` returns (rather than
propagating an exception), the final status is `processed` or `error`. -/
theorem report_process_final_status (env : ProcessEnv) (self : ReportRecord)
    (hid : pyFalsyId self.id = false)
    (hret : (Report.process env self).1 = Except.ok ()) :
    (Report.process env self).2.1.status = RStatus.processed ∨
    (Report.process env self).2.1.status = RStatus.error := by
  cases himp : env.importOk
  · simp [Report.process, hid, himp] at hret
  · rcases hrun : env.runResult with e | fps <;>
      simp [Report.process, hid, himp, hrun, saveStatusOnly]

/-- Witness for C2 at a concrete successful run. -/
theorem report_process_final_status_witness :
    (Report.process envOk recSaved).2.1.status = RStatus.processed ∨
    (Report.process envOk recSaved).2.1.status = RStatus.error :=
  report_process_final_status envOk recSaved (by rfl) (by rfl)

/-- C3: if `Report.process` ends with status `error`, the `results` field is
left unchanged; conversely `results` can only change on the run that ends with
status `processed` and a normal return. -/
theorem report_error_results_unchanged (env : ProcessEnv) (self : ReportRecord) :
    ((Report.process env self).2.1.status = RStatus.error →
      (Report.process env self).2.1.results = self.results) ∧
    ((Report.process env self).2.1.results ≠ self.results →
      (Report.process env self).2.1.status = RStatus.processed ∧
      (Report.process env self).1 = Except.ok ()) := by
  cases hid : pyFalsyId self.id
  · cases himp : env.importOk
    · constructor <;> simp [Report.process, hid, himp, saveStatusOnly]
    · rcases hrun : env.runResult with e | fps
      · constructor <;> simp [Report.process, hid, himp, hrun, saveStatusOnly]
      · constructor <;> simp [Report.process, hid, himp, hrun, saveStatusOnly]
  · constructor <;> simp [Report.process, hid]

/-- Witness for C3 at a concrete failing run. -/
theorem report_error_results_unchanged_witness :
    (Report.process envRunFail recSaved).2.1.results = recSaved.results :=
  (report_error_results_unchanged envRunFail recSaved).1 (by rfl)

/-- C4: calling `process` on a record that was never saved raises
`ReportNotSavedException` immediately: no exception handler runs, the record
(and its trace of status assignments) is untouched, and a pending record stays
pending. -/
theorem report_unsaved_raises (env : ProcessEnv) (self : ReportRecord)
    (hid : pyFalsyId self.id = true) :
    Report.process env self = (Except.error PyExc.reportNotSaved, self, []) ∧
    (self.status = RStatus.pending →
      (Report.process env self).2.1.status = RStatus.pending) := by
  have h1 : Report.process env self = (Except.error PyExc.reportNotSaved, self, []) := by
    simp [Report.process, hid]
  exact ⟨h1, fun hp => by rw [h1]; exact hp⟩

/-- Witness for C4 at a concrete unsaved record. -/
theorem report_unsaved_raises_witness :
    Report.process envOk recUnsaved =
      (Except.error PyExc.reportNotSaved, recUnsaved, []) ∧
    (Report.process envOk recUnsaved).2.1.status = RStatus.pending :=
  ⟨(report_unsaved_raises envOk recUnsaved rfl).1,
    (report_unsaved_raises envOk recUnsaved rfl).2 rfl⟩

/-- C5 counterexample: on a concrete successful run the instance holds the
joined results, but the database row's `results` column is still NULL — the
success path saves with `update_fields=['status']`, so only the status column
is persisted. -/
theorem report_results_not_persisted_cex :
    (Report.process envOk recSaved).1 = Except.ok () ∧
    (Report.process envOk recSaved).2.1.status = RStatus.processed ∧
    (Report.process envOk recSaved).2.1.results =
      some (List.intercalate [';'] [['a'], ['b']]) ∧
    (Report.process envOk recSaved).2.1.savedResults = none :=
  ⟨rfl, rfl, rfl, rfl⟩

/-- C5 (amended): after a successful `Report.process` the final status is both
set and saved to the database, but the `results` (and `process_time`) values
are assigned only on the in-memory instance: the save uses
`update_fields=['status']`, so those columns keep their prior values. -/
theorem report_success_persists_status_only (env : ProcessEnv)
    (self : ReportRecord) (fps : List PyStr)
    (hid : pyFalsyId self.id = false) (himp : env.importOk = true)
    (hrun : env.runResult = Except.ok fps) :
    (Report.process env self).1 = Except.ok () ∧
    (Report.process env self).2.1.status = RStatus.processed ∧
    (Report.process env self).2.1.savedStatus = RStatus.processed ∧
    (Report.process env self).2.1.results =
      some (List.intercalate [';']
        (fps.map (output_file_handler env.fileHandler))) ∧
    (Report.process env self).2.1.savedResults = self.savedResults ∧
    (Report.process env self).2.1.process_time = some env.elapsed ∧
    (Report.process env self).2.1.savedProcessTime = self.savedProcessTime := by
  simp [Report.process, hid, himp, hrun, saveStatusOnly]

/-- Witness for the amended C5 at a concrete successful run. -/
theorem report_success_persists_status_only_witness :
    (Report.process envOk recSaved).2.1.savedResults = recSaved.savedResults :=
  (report_success_persists_status_only envOk recSaved [['a'], ['b']]
    rfl rfl rfl).2.2.2.2.1

/-- C6: `output_file_handler` returns the filepath unchanged when no handler
is configured and the handler's value when one is; on a successful run the
record's `results` field is the `';'`-join of the handled paths in output
order. -/
theorem output_file_handler_spec (fp : PyStr) (handler : PyStr → PyStr)
    (env : ProcessEnv) (self : ReportRecord) (fps : List PyStr)
    (hid : pyFalsyId self.id = false) (himp : env.importOk = true)
    (hrun : env.runResult = Except.ok fps) :
    output_file_handler none fp = fp ∧
    output_file_handler (some handler) fp = handler fp ∧
    (Report.process env self).2.1.results =
      some (List.intercalate [';']
        (fps.map (output_file_handler env.fileHandler))) := by
  refine ⟨rfl, rfl, ?_⟩
  simp [Report.process, hid, himp, hrun, saveStatusOnly]

/-- Witness for C6 with a configured handler. -/
theorem output_file_handler_spec_witness :
    (Report.process envHandled recSaved).2.1.results =
      some (List.intercalate [';']
        ([['a'], ['b']].map (output_file_handler envHandled.fileHandler))) :=
  (output_file_handler_spec ['z'] cloudHandler envHandled recSaved
    [['a'], ['b']] rfl rfl rfl).2.2

/-- C7: a new record has the field default status `pending`; `process` sets
and saves `processing` before the report class is even resolved (the state
returned with an import failure already carries it); the first status
assignment of a call is always `processing`; and the assignment trace is one
of `[processing]`, `[processing, processed]`, `[processing, error]`, so the
status never moves from `processed` or `error` back to `pending` or
`processing` within the call. -/
theorem report_status_state_machine (env : ProcessEnv) (self : ReportRecord)
    (hid : pyFalsyId self.id = false) :
    (∀ i, (ReportRecord.new i).status = RStatus.pending) ∧
    (env.importOk = false →
      Report.process env self =
        (Except.error PyExc.importError,
          saveStatusOnly { self with status := RStatus.processing },
          [RStatus.processing])) ∧
    (Report.process env self).2.2.head? = some RStatus.processing ∧
    ((Report.process env self).2.2 = [RStatus.processing] ∨
     (Report.process env self).2.2 = [RStatus.processing, RStatus.processed] ∨
     (Report.process env self).2.2 = [RStatus.processing, RStatus.error]) := by
  refine ⟨fun i => rfl, ?_, ?_, ?_⟩
  · intro himp
    simp [Report.process, hid, himp]
  · cases himp : env.importOk
    · simp [Report.process, hid, himp]
    · rcases hrun : env.runResult with e | fps <;>
        simp [Report.process, hid, himp, hrun]
  · cases himp : env.importOk
    · simp [Report.process, hid, himp]
    · rcases hrun : env.runResult with e | fps <;>
        simp [Report.process, hid, himp, hrun]

/-- Witness for C7 at a concrete successful run. -/
theorem report_status_state_machine_witness :
    (Report.process envOk recSaved).2.2.head? = some RStatus.processing :=
  (report_status_state_machine envOk recSaved rfl).2.2.1

/-- C8 counterexample: the singleton list holding one empty path is non-empty
and `';'`-free, yet joining it gives the empty string, which
`results_as_list` reads back as `[]`, not as the original list. -/
theorem results_roundtrip_cex :
    ([[]] : List PyStr) ≠ [] ∧
    (∀ p ∈ ([[]] : List PyStr), ';' ∉ p) ∧
    results_as_list (some (List.intercalate [';'] ([[]] : List PyStr))) = [] ∧
    results_as_list (some (List.intercalate [';'] ([[]] : List PyStr))) ≠
      ([[]] : List PyStr) := by
  decide

/-- C8 (amended): `results_as_list` is `[]` on `None` and on the empty string
and splits on `';'` otherwise; joining a non-empty list of `';'`-free paths
with `';'` and reading it back round-trips, except for the singleton list
consisting of one empty path (whose join is the empty string and reads back
as `[]`). -/
theorem results_as_list_spec (s : PyStr) (paths : List PyStr)
    (hs : s ≠ []) (hne : paths ≠ [])
    (hsep : ∀ p ∈ paths, ';' ∉ p) (hsingle : paths ≠ [[]]) :
    results_as_list none = [] ∧
    results_as_list (some []) = [] ∧
    results_as_list (some s) = s.splitOn ';' ∧
    results_as_list (some (List.intercalate [';'] paths)) = paths := by
  have hsplit : (List.intercalate [';'] paths).splitOn ';' = paths :=
    List.splitOn_intercalate paths ';' hsep hne
  have hnonempty : List.intercalate [';'] paths ≠ [] := by
    intro h0
    rw [h0] at hsplit
    exact hsingle (by simpa using hsplit.symm)
  refine ⟨rfl, rfl, by simp [results_as_list, hs], ?_⟩
  simp [results_as_list, hnonempty, hsplit]

/-- Witness for the amended C8 at concrete paths. -/
theorem results_as_list_spec_witness :
    results_as_list (some (List.intercalate [';'] [['a'], ['b']])) =
      [['a'], ['b']] :=
  (results_as_list_spec ['x'] [['a'], ['b']] (by decide) (by decide)
    (by decide) (by decide)).2.2.2

/-- C10: `__init__` binds `output_filepaths` to a fresh empty list on the
instance — a different heap cell from the shared class attribute and from any
other instance's cell — and `process` rebinds the calling instance only, so
the filepaths recorded by one instance's `process()` never appear on another
initialized instance that has not been processed (it still reads `[]`), and
the class attribute itself is never changed. -/
theorem output_filepaths_fresh (P : Type) (fps : List P) :
    (initInstance (classHeap P)).2.ofpRef ≠ classAttrRef ∧
    (initInstance (initInstance (classHeap P)).1).2.ofpRef ≠ classAttrRef ∧
    (initInstance (classHeap P)).2.ofpRef ≠
      (initInstance (initInstance (classHeap P)).1).2.ofpRef ∧
    (initInstance (initInstance (classHeap P)).1).1.read
      (initInstance (classHeap P)).2.ofpRef = [] ∧
    (initInstance (initInstance (classHeap P)).1).1.read
      (initInstance (initInstance (classHeap P)).1).2.ofpRef = [] ∧
    (setOutputFilepaths (initInstance (initInstance (classHeap P)).1).1 fps).1.read
      (setOutputFilepaths (initInstance (initInstance (classHeap P)).1).1 fps).2.ofpRef
      = fps ∧
    (setOutputFilepaths (initInstance (initInstance (classHeap P)).1).1 fps).1.read
      (initInstance (initInstance (classHeap P)).1).2.ofpRef = [] ∧
    (setOutputFilepaths (initInstance (initInstance (classHeap P)).1).1 fps).1.read
      classAttrRef = [] :=
  ⟨by simp [initInstance, ListHeap.alloc, classHeap, classAttrRef],
    by simp [initInstance, ListHeap.alloc, classHeap, classAttrRef],
    by simp [initInstance, ListHeap.alloc, classHeap, classAttrRef],
    rfl, rfl, rfl, rfl, rfl⟩

end OnMyDesk
